import Mathlib

/-!
Verification of the snapshot scheduling, snapshot filename, save state-machine,
replication handshake and REPLCONF logic of the dragonfly server
(src/server/server_family.cc and src/server/replica.cc), via a shallow
embedding of the relevant functions into Lean.

Strings are modelled as lists of characters; character comparisons mirror the
byte comparisons of the source.
-/

namespace Dragonfly

/-- A snapshot schedule: a pair of glob specifiers, one for the hour and one
for the minute, as in server_family.h. -/
structure SnapshotSpec where
  hour_spec : List Char
  minute_spec : List Char
deriving DecidableEq

/-- The loop body of IsValidSaveScheduleNibble (server_family.cc:128-151):
walks the characters, rejecting any that is neither a star nor a decimal
digit, and accumulates the minimum value the pattern can match (stars count
as 0) in an unsigned int. Returns none when an invalid character is found,
otherwise the accumulated minimum. -/
def nibbleMinLoop : List Char → Nat → Option Nat
  | [], min_match => some min_match
  | c :: cs, min_match =>
    if c ≠ '*' ∧ (c.toNat < 48 ∨ 57 < c.toNat) then none
    else nibbleMinLoop cs ((min_match * 10 + (if c = '*' then 0 else c.toNat - 48)) % 4294967296)

/-- IsValidSaveScheduleNibble (server_family.cc:128-151): a nibble is valid
iff all its characters are digits or stars and the minimum time the pattern
can match (stars replaced by 0) is at most mx. -/
def IsValidSaveScheduleNibble (time : List Char) (mx : Nat) : Bool :=
  match nibbleMinLoop time 0 with
  | none => false
  | some min_match => min_match ≤ mx

/-- ParseSaveSchedule (server_family.cc:226-248). The separator search
mirrors std::string_view::find of the first colon; when no colon occurs,
List.findIdx returns the length, which is at least 3 here, exactly like
npos against the check separator_idx >= 3. -/
def ParseSaveSchedule (time : List Char) : Option SnapshotSpec :=
  if time.length < 3 ∨ 5 < time.length then none
  else
    let separator_idx := time.findIdx (fun c => c = ':')
    if separator_idx = 0 ∨ 3 ≤ separator_idx then none
    else
      let spec : SnapshotSpec := ⟨time.take separator_idx, time.drop (separator_idx + 1)⟩
      if spec.minute_spec ≠ ['*'] ∧ spec.minute_spec.length ≠ 2 then none
      else if IsValidSaveScheduleNibble spec.hour_spec 23 ∧
              IsValidSaveScheduleNibble spec.minute_spec 59 then
        some spec
      else none

/-- Claim-side predicate: the character is a star or a decimal digit
(code point between those of 0 and 9). -/
def starOrDigit (c : Char) : Prop := c = '*' ∨ (48 ≤ c.toNat ∧ c.toNat ≤ 57)

instance (c : Char) : Decidable (starOrDigit c) := by
  unfold starOrDigit; infer_instance

/-- Claim-side function: the value obtained by substituting 0 for every
star and reading the characters as decimal digits. -/
def minSubst (l : List Char) : Nat :=
  l.foldl (fun a c => a * 10 + (if c = '*' then 0 else c.toNat - 48)) 0

/-- Claim-side predicate for C1, following the words of the claim: the input
has the form HH:MM, the hour part has length 1 or 2, the minute part has
length exactly 2 or is the single character star, every character of both
parts is a decimal digit or a star, and substituting 0 for every star yields
an hour value at most 23 and a minute value at most 59. -/
def saveScheduleClaim (s : List Char) : Prop :=
  ∃ hh mm, s = hh ++ ':' :: mm
    ∧ (hh.length = 1 ∨ hh.length = 2)
    ∧ (mm.length = 2 ∨ mm = ['*'])
    ∧ (∀ c ∈ hh, starOrDigit c) ∧ (∀ c ∈ mm, starOrDigit c)
    ∧ minSubst hh ≤ 23 ∧ minSubst mm ≤ 59

example : (ParseSaveSchedule "*:30".toList).isSome = true := by decide
example : ParseSaveSchedule "2:30".toList = some ⟨['2'], ['3', '0']⟩ := by decide
example : (ParseSaveSchedule "23:5".toList).isSome = false := by decide
example : (ParseSaveSchedule "24:00".toList).isSome = false := by decide
example : (ParseSaveSchedule "2*:00".toList).isSome = true := by decide
example : (ParseSaveSchedule "9*:00".toList).isSome = false := by decide
example : (ParseSaveSchedule "*2:00".toList).isSome = true := by decide
example : (ParseSaveSchedule ":2:0".toList).isSome = false := by decide
example : (ParseSaveSchedule "**:**".toList).isSome = true := by decide

lemma starOrDigit_iff (c : Char) :
    (¬ (c ≠ '*' ∧ (c.toNat < 48 ∨ 57 < c.toNat))) ↔ starOrDigit c := by
  unfold starOrDigit
  by_cases h : c = '*'
  · simp [h]
  · simp [h]

lemma starOrDigit_ne_colon {c : Char} (h : starOrDigit c) : c ≠ ':' := by
  rcases h with rfl | ⟨h1, h2⟩
  · decide
  · intro hc
    subst hc
    exact absurd h2 (by decide)

lemma dval_le_nine (c : Char) (h : starOrDigit c) :
    (if c = '*' then 0 else c.toNat - 48) ≤ 9 := by
  rcases h with rfl | ⟨h1, h2⟩
  · simp
  · by_cases hc : c = '*'
    · simp [hc]
    · simp [hc]
      omega

lemma nibbleMinLoop_none_iff (l : List Char) : ∀ acc,
    nibbleMinLoop l acc = none ↔ ∃ c ∈ l, ¬ starOrDigit c := by
  induction l with
  | nil => intro acc; simp [nibbleMinLoop]
  | cons c cs ih =>
    intro acc
    simp only [nibbleMinLoop]
    by_cases hb : c ≠ '*' ∧ (c.toNat < 48 ∨ 57 < c.toNat)
    · rw [if_pos hb]
      constructor
      · intro _
        exact ⟨c, List.mem_cons_self c cs, fun hd => ((starOrDigit_iff c).mpr hd) hb⟩
      · intro _
        rfl
    · rw [if_neg hb, ih]
      simp only [List.mem_cons]
      constructor
      · rintro ⟨d, hd, hnd⟩; exact ⟨d, Or.inr hd, hnd⟩
      · rintro ⟨d, rfl | hd, hnd⟩
        · exact absurd ((starOrDigit_iff d).mp hb) hnd
        · exact ⟨d, hd, hnd⟩

lemma nibbleMinLoop_small (l : List Char) (hlen : l.length ≤ 2)
    (hv : ∀ c ∈ l, starOrDigit c) : nibbleMinLoop l 0 = some (minSubst l) := by
  rcases l with _ | ⟨a, _ | ⟨b, _ | ⟨c, rest⟩⟩⟩
  · simp [nibbleMinLoop, minSubst]
  · have ha := hv a (by simp)
    have hda := dval_le_nine a ha
    have hba := (starOrDigit_iff a).mpr ha
    simp only [nibbleMinLoop, if_neg hba]
    rw [Nat.mod_eq_of_lt (by omega)]
    simp [minSubst]
  · have ha := hv a (by simp)
    have hb := hv b (by simp)
    have hda := dval_le_nine a ha
    have hdb := dval_le_nine b hb
    have hba := (starOrDigit_iff a).mpr ha
    have hbb := (starOrDigit_iff b).mpr hb
    simp only [nibbleMinLoop, if_neg hba, if_neg hbb]
    rw [Nat.mod_eq_of_lt (by omega), Nat.mod_eq_of_lt (by omega)]
    simp [minSubst]
  · simp at hlen

lemma isValidNibble_iff (l : List Char) (hlen : l.length ≤ 2) (mx : Nat) :
    IsValidSaveScheduleNibble l mx = true ↔
      ((∀ c ∈ l, starOrDigit c) ∧ minSubst l ≤ mx) := by
  unfold IsValidSaveScheduleNibble
  by_cases hv : ∀ c ∈ l, starOrDigit c
  · rw [nibbleMinLoop_small l hlen hv]
    show decide (minSubst l ≤ mx) = true ↔ _
    simp only [decide_eq_true_eq]
    exact ⟨fun hle => ⟨hv, hle⟩, fun hc => hc.2⟩
  · have hn : nibbleMinLoop l 0 = none := by
      rw [nibbleMinLoop_none_iff]
      push_neg at hv
      exact hv
    rw [hn]
    simp [hv]

lemma parse_sound (s : List Char) (h : (ParseSaveSchedule s).isSome = true) :
    saveScheduleClaim s := by
  rcases s with _ | ⟨a, _ | ⟨b, _ | ⟨c, rest⟩⟩⟩
  · simp [ParseSaveSchedule] at h
  · simp [ParseSaveSchedule] at h
  · simp [ParseSaveSchedule] at h
  · by_cases ha : a = ':'
    · have hfind : ((a :: b :: c :: rest).findIdx fun x => x = ':') = 0 := by
        simp [List.findIdx_cons, ha]
      simp [ParseSaveSchedule, hfind] at h
    · by_cases hb : b = ':'
      · -- separator at index 1: hour [a], minute c :: rest
        subst hb
        have hfind : ((a :: ':' :: c :: rest).findIdx fun x => x = ':') = 1 := by
          simp [List.findIdx_cons, ha]
        simp only [ParseSaveSchedule, hfind] at h
        split at h
        · simp at h
        · rw [if_neg (show ¬ ((1 : Nat) = 0 ∨ 3 ≤ (1 : Nat)) by norm_num),
             show List.drop (1 + 1) (a :: ':' :: c :: rest) = c :: rest from rfl,
             show List.take 1 (a :: ':' :: c :: rest) = [a] from rfl] at h
          split at h
          · simp at h
          · split at h
            · rename_i hcond hmin hnib
              rw [not_and_or, not_not, not_not] at hmin
              have hmm2 : (c :: rest).length = 2 ∨ (c :: rest) = ['*'] := by
                tauto
              have hmmlen : (c :: rest).length ≤ 2 := by
                rcases hmm2 with h1 | h1
                · omega
                · rw [h1]; simp
              obtain ⟨hnh, hnm⟩ := hnib
              rw [isValidNibble_iff [a] (by simp) 23] at hnh
              rw [isValidNibble_iff (c :: rest) hmmlen 59] at hnm
              exact ⟨[a], c :: rest, rfl, Or.inl rfl, hmm2, hnh.1, hnm.1, hnh.2, hnm.2⟩
            · simp at h
      · by_cases hc : c = ':'
        · -- separator at index 2: hour [a, b], minute rest
          subst hc
          have hfind : ((a :: b :: ':' :: rest).findIdx fun x => x = ':') = 2 := by
            simp [List.findIdx_cons, ha, hb]
          simp only [ParseSaveSchedule, hfind] at h
          split at h
          · simp at h
          · rw [if_neg (show ¬ ((2 : Nat) = 0 ∨ 3 ≤ (2 : Nat)) by norm_num),
               show List.drop (2 + 1) (a :: b :: ':' :: rest) = rest from rfl,
               show List.take 2 (a :: b :: ':' :: rest) = [a, b] from rfl] at h
            split at h
            · simp at h
            · split at h
              · rename_i hcond hmin hnib
                rw [not_and_or, not_not, not_not] at hmin
                have hmm2 : rest.length = 2 ∨ rest = ['*'] := by
                  tauto
                have hmmlen : rest.length ≤ 2 := by
                  rcases hmm2 with h1 | h1
                  · omega
                  · rw [h1]; simp
                obtain ⟨hnh, hnm⟩ := hnib
                rw [isValidNibble_iff [a, b] (by simp) 23] at hnh
                rw [isValidNibble_iff rest hmmlen 59] at hnm
                exact ⟨[a, b], rest, rfl, Or.inr rfl, hmm2, hnh.1, hnm.1, hnh.2, hnm.2⟩
              · simp at h
        · -- no separator among the first three characters: index at least 3
          have hfind : 3 ≤ ((a :: b :: c :: rest).findIdx fun x => x = ':') := by
            simp [List.findIdx_cons, ha, hb, hc]
          simp only [ParseSaveSchedule] at h
          split at h
          · simp at h
          · rw [if_pos (Or.inr hfind)] at h
            simp at h

lemma parse_complete (s : List Char) (h : saveScheduleClaim s) :
    (ParseSaveSchedule s).isSome = true := by
  obtain ⟨hh, mm, rfl, hlen, hmm, hchh, hcmm, hminh, hminm⟩ := h
  have hmmlen : mm.length ≤ 2 := by
    rcases hmm with h1 | h1
    · omega
    · rw [h1]; simp
  have hmmpos : 1 ≤ mm.length := by
    rcases hmm with h1 | h1
    · omega
    · rw [h1]; simp
  have hmin : ¬ (mm ≠ ['*'] ∧ mm.length ≠ 2) := by
    rw [not_and_or, not_not, not_not]
    tauto
  rcases hlen with h1 | h2
  · obtain ⟨x, rfl⟩ := List.length_eq_one.mp h1
    have hx : x ≠ ':' := starOrDigit_ne_colon (hchh x (by simp))
    have hfind : (([x] ++ ':' :: mm).findIdx (fun c => c = ':')) = 1 := by
      simp only [List.cons_append, List.nil_append, List.findIdx_cons]
      rw [show (decide (x = ':')) = false from by simp [hx]]
      simp
    simp only [ParseSaveSchedule, hfind]
    rw [if_neg (by simp; omega), if_neg (by omega)]
    simp only [List.cons_append, List.nil_append, List.take, List.drop]
    rw [if_neg hmin, if_pos ?vld]
    · simp
    case vld =>
      constructor
      · exact (isValidNibble_iff [x] (by simp) 23).mpr ⟨hchh, hminh⟩
      · exact (isValidNibble_iff mm hmmlen 59).mpr ⟨hcmm, hminm⟩
  · obtain ⟨x, y, rfl⟩ := List.length_eq_two.mp h2
    have hx : x ≠ ':' := starOrDigit_ne_colon (hchh x (by simp))
    have hy : y ≠ ':' := starOrDigit_ne_colon (hchh y (by simp))
    have hfind : (([x, y] ++ ':' :: mm).findIdx (fun c => c = ':')) = 2 := by
      simp only [List.cons_append, List.nil_append, List.findIdx_cons]
      rw [show (decide (x = ':')) = false from by simp [hx],
          show (decide (y = ':')) = false from by simp [hy]]
      simp
    simp only [ParseSaveSchedule, hfind]
    rw [if_neg (by simp; omega), if_neg (by omega)]
    simp only [List.cons_append, List.nil_append, List.take, List.drop]
    rw [if_neg hmin, if_pos ?vld2]
    · simp
    case vld2 =>
      constructor
      · exact (isValidNibble_iff [x, y] (by simp) 23).mpr ⟨hchh, hminh⟩
      · exact (isValidNibble_iff mm hmmlen 59).mpr ⟨hcmm, hminm⟩

/-- C1: for every input string s, ParseSaveSchedule s succeeds iff s has the
form HH:MM where the hour part has length 1 or 2, the minute part has length
exactly 2 or is the single character star, every character of both parts is
a decimal digit or a star, and substituting 0 for every star yields an hour
value at most 23 and a minute value at most 59; otherwise it returns none. -/
theorem parseSaveSchedule_iff_claim (s : List Char) :
    (ParseSaveSchedule s).isSome = true ↔ saveScheduleClaim s :=
  ⟨parse_sound s, parse_complete s⟩

/-- Witness for C1 at the concrete input 2:30. -/
theorem parseSaveSchedule_iff_claim_witness : saveScheduleClaim "2:30".toList :=
  (parseSaveSchedule_iff_claim "2:30".toList).mp (by decide)

/-- The loop of DoesTimeNibbleMatchSpecifier (server_family.cc:250-266),
expressed over the reversed specifier: the C++ code walks the specifier from
its last character to its first, peeling one decimal digit of current_time
per step, and finally demands that no digits of current_time are left. The
digit comparison is done in Int because the C++ comparison promotes the
char subtraction to int, so a character below the digit range yields a
negative value that matches no digit. -/
def nibbleMatchLoop : List Char → Nat → Bool
  | [], current_time => current_time == 0
  | c :: cs, current_time =>
    if c ≠ '*' ∧ ((current_time % 10 : Nat) : Int) ≠ (c.toNat : Int) - 48 then false
    else nibbleMatchLoop cs (current_time / 10)

/-- DoesTimeNibbleMatchSpecifier (server_family.cc:250-266): a single
greedy star matches everything; otherwise the digit-by-digit loop runs
right to left. -/
def DoesTimeNibbleMatchSpecifier (time_spec : List Char) (current_time : Nat) : Bool :=
  if time_spec = ['*'] then true
  else nibbleMatchLoop time_spec.reverse current_time

/-- DoesTimeMatchSpecifier (server_family.cc:268-273). -/
def DoesTimeMatchSpecifier (spec : SnapshotSpec) (now : Nat) : Bool :=
  DoesTimeNibbleMatchSpecifier spec.hour_spec (now / 3600 % 24) &&
  DoesTimeNibbleMatchSpecifier spec.minute_spec (now / 60 % 60)

/-- Claim-side matcher for C2, following the words of the claim: the
specifier is right-aligned against the decimal digits of the value and
every non-star character must equal the corresponding digit; digits of the
value beyond the length of the specifier are not constrained. Expressed
over the reversed specifier, so the head is the rightmost character and
position i from the right is compared with digit i of the value. -/
def digitsMatchAux : List Char → Nat → Bool
  | [], _ => true
  | c :: cs, v => (c == '*' || ((v % 10 : Nat) : Int) == (c.toNat : Int) - 48) && digitsMatchAux cs (v / 10)

/-- Claim-side nibble matcher for C2. -/
def nibbleClaimMatch (time_spec : List Char) (v : Nat) : Bool :=
  digitsMatchAux time_spec.reverse v

/-- Claim-side statement of C2: both components match digit-by-digit,
right-aligned, with stars free. -/
def timeMatchClaim (spec : SnapshotSpec) (t : Nat) : Bool :=
  nibbleClaimMatch spec.hour_spec (t / 3600 % 24) &&
  nibbleClaimMatch spec.minute_spec (t / 60 % 60)

lemma nibbleMatchLoop_iff (l : List Char) : ∀ ct,
    nibbleMatchLoop l ct = true ↔ (digitsMatchAux l ct = true ∧ ct < 10 ^ l.length) := by
  induction l with
  | nil =>
    intro ct
    simp only [nibbleMatchLoop, digitsMatchAux, List.length_nil, pow_zero, beq_iff_eq,
      eq_self_iff_true, true_and]
    omega
  | cons c cs ih =>
    intro ct
    simp only [nibbleMatchLoop, digitsMatchAux, List.length_cons]
    by_cases hm : c ≠ '*' ∧ ((ct % 10 : Nat) : Int) ≠ (c.toNat : Int) - 48
    · obtain ⟨h1, h2⟩ := hm
      have hhead : (c == '*' || ((ct % 10 : Nat) : Int) == (c.toNat : Int) - 48) = false := by
        rw [Bool.or_eq_false_iff]
        exact ⟨beq_eq_false_iff_ne.mpr h1, beq_eq_false_iff_ne.mpr h2⟩
      rw [if_pos ⟨h1, h2⟩, hhead]
      simp
    · rw [if_neg hm, ih]
      rw [not_and_or, not_not, not_not] at hm
      have hhead : (c == '*' || ((ct % 10 : Nat) : Int) == (c.toNat : Int) - 48) = true := by
        rw [Bool.or_eq_true]
        rcases hm with h1 | h1
        · exact Or.inl (beq_iff_eq.mpr h1)
        · exact Or.inr (beq_iff_eq.mpr h1)
      have hpow : ct / 10 < 10 ^ cs.length ↔ ct < 10 ^ (cs.length + 1) := by
        rw [Nat.div_lt_iff_lt_mul (by norm_num), pow_succ]
      rw [hhead]
      simp [hpow]

lemma timeNibble_iff (time_spec : List Char) (v : Nat) :
    DoesTimeNibbleMatchSpecifier time_spec v = true ↔
      (time_spec = ['*'] ∨
        (nibbleClaimMatch time_spec v = true ∧ v < 10 ^ time_spec.length)) := by
  unfold DoesTimeNibbleMatchSpecifier nibbleClaimMatch
  by_cases hs : time_spec = ['*']
  · simp [hs]
  · rw [if_neg hs, nibbleMatchLoop_iff]
    simp [hs, List.length_reverse]

/-- C2 (corrected): DoesTimeMatchSpecifier holds iff, for each of the hour
component against (t / 3600) % 24 and the minute component against
(t / 60) % 60, either the component specifier is the single character star,
or every non-star character right-aligned against the decimal digits of the
value equals the corresponding digit and in addition the value has no
nonzero digits beyond the length of the specifier, i.e. it is below
10 ^ length. The original claim omits the latter bound, which the loop
enforces through its final check that the remaining digits are zero. -/
theorem doesTimeMatch_amended (spec : SnapshotSpec) (t : Nat) :
    DoesTimeMatchSpecifier spec t = true ↔
      ((spec.hour_spec = ['*'] ∨ (nibbleClaimMatch spec.hour_spec (t / 3600 % 24) = true ∧
          t / 3600 % 24 < 10 ^ spec.hour_spec.length)) ∧
       (spec.minute_spec = ['*'] ∨ (nibbleClaimMatch spec.minute_spec (t / 60 % 60) = true ∧
          t / 60 % 60 < 10 ^ spec.minute_spec.length))) := by
  unfold DoesTimeMatchSpecifier
  rw [Bool.and_eq_true, timeNibble_iff, timeNibble_iff]

/-- Witness for C2: the schedule *:30 matches 12:30 UTC. -/
theorem doesTimeMatch_amended_witness :
    DoesTimeMatchSpecifier ⟨"*".toList, "30".toList⟩ 45000 = true :=
  (doesTimeMatch_amended ⟨"*".toList, "30".toList⟩ 45000).mpr (by decide)

/-- C2 counterexample: with hour specifier 2 and minute specifier 00, at
unix time 43200 (hour 12, minute 0) the code returns false because after
matching the final digit 2 the loop still sees the leading digit 1 of 12,
while the claim (right-aligned digit comparison only) predicts true. -/
theorem doesTimeMatch_claim_counterexample :
    DoesTimeMatchSpecifier ⟨['2'], ['0', '0']⟩ 43200 = false ∧
      timeMatchClaim ⟨['2'], ['0', '0']⟩ 43200 = true := by decide

/-- C10: DoesTimeMatchSpecifier depends only on the time of day: shifting
the unix time by one day (86400 seconds) never changes the verdict, since
the function reads only (t / 3600) % 24 and (t / 60) % 60. -/
theorem doesTimeMatch_day_periodic (spec : SnapshotSpec) (t : Nat) :
    DoesTimeMatchSpecifier spec t = DoesTimeMatchSpecifier spec (t + 86400) := by
  have h1 : (t + 86400) / 3600 % 24 = t / 3600 % 24 := by omega
  have h2 : (t + 86400) / 60 % 60 = t / 60 % 60 := by omega
  unfold DoesTimeMatchSpecifier
  rw [h1, h2]

example : DoesTimeMatchSpecifier ⟨"*".toList, "30".toList⟩ (12 * 3600 + 30 * 60) = true := by
  decide
example : DoesTimeMatchSpecifier ⟨"*".toList, "30".toList⟩ (12 * 3600 + 31 * 60) = false := by
  decide
example : DoesTimeMatchSpecifier ⟨['2'], ['0', '0']⟩ 43200 = false := by decide
example : timeMatchClaim ⟨['2'], ['0', '0']⟩ 43200 = true := by decide

/-! ### Global state and the DoSave admission check (C3) -/

/-- The global lifecycle states of the server (server_state.h). -/
inductive GlobalState
  | ACTIVE
  | LOADING
  | SAVING
  | SHUTTING_DOWN
deriving DecidableEq

/-- Modelled from the spec: the printable names of the global states, used
by DoSave to build err_details; GlobalStateName lives outside the given
sources. -/
def GlobalStateName : GlobalState → List Char
  | .ACTIVE => "ACTIVE".toList
  | .LOADING => "LOADING".toList
  | .SAVING => "SAVING".toList
  | .SHUTTING_DOWN => "SHUTTING_DOWN".toList

/-- Modelled from the spec: Service.SwitchState (main_service.cc, outside
the given sources) atomically checks that the current global state equals
the source argument; when it does, the state becomes the target argument
and the resulting state is returned, otherwise the state is left unchanged
and the observed current state is returned. The first component is the
global state afterwards, the second the return value. This is the only
reading on which DoSave can ever succeed, since DoSave treats a return
value equal to the target SAVING as success. -/
def SwitchState (current src target : GlobalState) : GlobalState × GlobalState :=
  if current = src then (target, target) else (current, current)

/-- The outcome of the state-admission prologue of ServerFamily.DoSave
(server_family.cc:690-698): the global state afterwards, the err_details
written (none when the check passes), and whether DoSave returns early
with errc.operation_in_progress. -/
structure DoSaveCheckResult where
  state : GlobalState
  err_details : Option (List Char)
  rejected : Bool
deriving DecidableEq

/-- The state-admission prologue of ServerFamily.DoSave
(server_family.cc:690-698): call SwitchState(ACTIVE, SAVING); when the
returned state differs from SAVING, set err_details to the observed state
name followed by " - can not save database" and return
errc.operation_in_progress; otherwise proceed with the save. -/
def DoSaveStateCheck (current : GlobalState) : DoSaveCheckResult :=
  let r := SwitchState current .ACTIVE .SAVING
  if r.2 ≠ .SAVING then
    { state := r.1,
      err_details := some (GlobalStateName r.2 ++ " - can not save database".toList),
      rejected := true }
  else
    { state := r.1, err_details := none, rejected := false }

/-- C3 (code bug): when DoSave runs while the global state is already
SAVING, SwitchState fails to switch but returns the observed state SAVING,
which is exactly the value DoSave compares against to detect success; the
admission check therefore passes and a second concurrent save proceeds,
instead of returning operation_in_progress with the message
"SAVING - can not save database" as the claim (and the spec) require. The
error branch can only ever produce the message for a non-SAVING state, as
the LOADING case shows. -/
theorem doSave_saving_admission_bug :
    (DoSaveStateCheck .SAVING).rejected = false ∧
    (DoSaveStateCheck .SAVING).err_details = none ∧
    (DoSaveStateCheck .SAVING).state = .SAVING ∧
    (DoSaveStateCheck .LOADING).rejected = true ∧
    (DoSaveStateCheck .LOADING).err_details =
      some ("LOADING - can not save database".toList) ∧
    (DoSaveStateCheck .ACTIVE).rejected = false ∧
    (DoSaveStateCheck .ACTIVE).err_details ≠
      some ("SAVING - can not save database".toList) ∧
    (DoSaveStateCheck .LOADING).err_details ≠
      some ("SAVING - can not save database".toList) ∧
    (DoSaveStateCheck .SAVING).err_details ≠
      some ("SAVING - can not save database".toList) ∧
    (DoSaveStateCheck .SHUTTING_DOWN).err_details ≠
      some ("SAVING - can not save database".toList) := by
  decide

/-! ### The snapshot scheduler wake-up guard (C4) -/

/-- The decision taken by one wake-up of ServerFamily.SnapshotScheduling
(server_family.cc:419-455): DoSave(false) is invoked exactly when the
schedule matches the current time and the last recorded save time falls in
a different wall-clock minute; otherwise the iteration continues without
saving. -/
def schedulerStep (spec : SnapshotSpec) (last_save now : Nat) : Bool :=
  DoesTimeMatchSpecifier spec now && !(last_save / 60 == now / 60)

/-- C4: a wake-up of the snapshot scheduler calls DoSave only when the
schedule matches now and the last recorded save lies in a different
wall-clock minute; consequently, once a save is recorded inside a given
minute, no further scheduled save can start during that same minute. -/
theorem snapshotScheduling_guard (spec : SnapshotSpec) (last_save now : Nat) :
    (schedulerStep spec last_save now = true ↔
      (DoesTimeMatchSpecifier spec now = true ∧ last_save / 60 ≠ now / 60)) ∧
    (∀ recorded now2, recorded / 60 = now2 / 60 →
      schedulerStep spec recorded now2 = false) := by
  constructor
  · simp [schedulerStep]
  · intro recorded now2 hmin
    simp [schedulerStep, hmin]

/-- Witness for C4: with schedule *:30 and a last save at 12:29, the
wake-up at 12:30:05 does save, and a wake-up 20 seconds after a save
recorded at 12:30:05 does not. -/
theorem snapshotScheduling_guard_witness :
    schedulerStep ⟨"*".toList, "30".toList⟩ 44940 45005 = true ∧
    schedulerStep ⟨"*".toList, "30".toList⟩ 45005 45025 = false := by
  constructor
  · exact (snapshotScheduling_guard ⟨"*".toList, "30".toList⟩ 44940 45005).1.mpr
      (by decide)
  · exact (snapshotScheduling_guard ⟨"*".toList, "30".toList⟩ 0 0).2 45005 45025
      (by decide)

/-! ### Snapshot filename construction (C5) -/

/-- The filename component of a path in the sense of std::filesystem: the
part after the last directory separator. -/
def filenameOf (p : List Char) : List Char :=
  (p.reverse.takeWhile (fun c => c ≠ '/')).reverse

/-- The extension of a path in the sense of std::filesystem::path, as used
by has_extension and replace_extension: the substring of the filename
component from its last period to the end, except that the special
components dot and dot-dot, filenames without a period, and filenames
whose only use of a leading period would be that last period (dot files)
have no extension. -/
def extensionOf (p : List Char) : List Char :=
  let f := filenameOf p
  if f = ['.'] ∨ f = ['.', '.'] then []
  else
    let after := f.reverse.takeWhile (fun c => c ≠ '.')
    if after.length = f.length then []
    else if after.length + 1 = f.length then []
    else '.' :: after.reverse

/-- std::filesystem::path::replace_extension with no argument: the
extension, when present, is removed from the end of the pathname. -/
def removeExtension (p : List Char) : List Char :=
  p.take (p.length - (extensionOf p).length)

/-- Decimal digits of a natural number, most significant first, with a fuel
argument that dominates the number of digits. -/
def natToCharsAux : Nat → Nat → List Char → List Char
  | 0, _, acc => acc
  | fuel + 1, n, acc =>
    if n < 10 then Char.ofNat (48 + n) :: acc
    else natToCharsAux fuel (n / 10) (Char.ofNat (48 + n % 10) :: acc)

/-- Decimal digits of a natural number, most significant first. -/
def natToChars (n : Nat) : List Char := natToCharsAux (n + 1) n []

/-- absl::Dec with absl::kZeroPad4: decimal digits left-padded with zeros
to a width of at least 4. -/
def zeroPad4 (n : Nat) : List Char :=
  List.replicate (4 - (natToChars n).length) '0' ++ natToChars n

/-- ExtendFilename (server_family.cc:203-216). The timestamp string
produced by FormatTs from the wall-clock time is passed in as ts. In
legacy mode (shard < 0) the suffix -ts.rdb is appended only when the
filename carries no extension; in native mode the extension is first
removed and -ts-shardid.dfs is appended, with the shard id zero-padded
to 4 digits. -/
def ExtendFilename (ts : List Char) (shard : Int) (filename : List Char) : List Char :=
  if shard < 0 then
    if ¬ (extensionOf filename ≠ []) then
      filename ++ ('-' :: ts) ++ ".rdb".toList
    else filename
  else
    removeExtension filename ++ ('-' :: ts) ++ ('-' :: zeroPad4 shard.toNat) ++ ".dfs".toList

example : ExtendFilename "2022-04-22T13:19:04".toList (-1) "dump".toList =
    "dump-2022-04-22T13:19:04.rdb".toList := by decide
example : ExtendFilename "2022-04-22T13:19:04".toList (-1) "dump.rdb".toList =
    "dump.rdb".toList := by decide
example : ExtendFilename "2022-04-22T13:19:04".toList 3 "dump.rdb".toList =
    "dump-2022-04-22T13:19:04-0003.dfs".toList := by decide
example : ExtendFilename "ts".toList 12345 "a".toList = "a-ts-12345.dfs".toList := by decide

/-- C5: in legacy mode the timestamped .rdb suffix is appended exactly when
the filename has no extension, and the filename is returned unchanged
otherwise; in native mode, for every shard id, any existing extension is
first removed and the timestamped, 4-digit-zero-padded .dfs suffix is
appended. The zero padding always yields the decimal digits padded to a
width of at least four. -/
theorem extendFilename_claim (ts fn : List Char) (shard : Int) :
    (shard < 0 → extensionOf fn = [] →
      ExtendFilename ts shard fn = fn ++ ('-' :: ts) ++ ['.', 'r', 'd', 'b']) ∧
    (shard < 0 → extensionOf fn ≠ [] → ExtendFilename ts shard fn = fn) ∧
    (0 ≤ shard →
      ExtendFilename ts shard fn =
        removeExtension fn ++ ('-' :: ts) ++ ('-' :: zeroPad4 shard.toNat) ++
          ['.', 'd', 'f', 's']) ∧
    (∀ n : Nat, (zeroPad4 n).length = max 4 (natToChars n).length) := by
  refine ⟨?_, ?_, ?_, ?_⟩
  · intro hs hext
    simp [ExtendFilename, hs, hext]
  · intro hs hext
    simp [ExtendFilename, hs, hext]
  · intro hs
    have : ¬ shard < 0 := by omega
    simp [ExtendFilename, this]
  · intro n
    have h := List.length_replicate (4 - (natToChars n).length) '0'
    simp [zeroPad4]
    omega

/-- Witness for C5 at concrete inputs covering all three branches. -/
theorem extendFilename_claim_witness :
    ExtendFilename "T".toList (-1) "dump".toList = "dump-T.rdb".toList ∧
    ExtendFilename "T".toList (-1) "dump.rdb".toList = "dump.rdb".toList ∧
    ExtendFilename "T".toList 7 "dump.rdb".toList = "dump-T-0007.dfs".toList := by
  refine ⟨?_, ?_, ?_⟩
  · rw [(extendFilename_claim "T".toList "dump".toList (-1)).1 (by decide) (by decide)]
    decide
  · exact (extendFilename_claim "T".toList "dump.rdb".toList (-1)).2.1 (by decide)
      (by decide)
  · rw [(extendFilename_claim "T".toList "dump.rdb".toList 7).2.2.1 (by decide)]
    decide

/-! ### Publication of LastSaveInfo by DoSave (C9) -/

/-- LastSaveInfo (server_family.h): the unix time of the last successful
save, the file written, and the aggregated type frequency map. -/
structure LastSaveInfo where
  save_time : Nat
  file_name : List Char
  freq_map : List (List Char × Nat)
deriving DecidableEq

/-- The epilogue of ServerFamily.DoSave (server_family.cc:815-828): when
the merged error code ec is clear, a fresh LastSaveInfo is built from the
timestamp captured at the start of the save (converted to unix seconds
before the call and passed here as now_unix), the constructed path and the
aggregated frequency map, and swapped in under save_mu_; when ec holds an
error, last_save_info_ is left untouched. The function returns the value of
last_save_info_ after DoSave finishes. -/
def doSavePublish (ec : Option Nat) (now_unix : Nat) (path : List Char)
    (freq : List (List Char × Nat)) (prev : LastSaveInfo) : LastSaveInfo :=
  match ec with
  | none => { save_time := now_unix, file_name := path, freq_map := freq }
  | some _ => prev

/-- ServerFamily.LastSave (server_family.cc:1428-1435): the LASTSAVE reply
is the save_time of the current last_save_info_. -/
def lastSaveReply (info : LastSaveInfo) : Nat := info.save_time

/-- C9: last_save_info_ is replaced exactly when DoSave succeeds; on
success the published save_time is the unix seconds of the timestamp
captured during the save (hence at least the previously observed save_time
whenever the clock did not run backwards) and file_name is the path that
was written, and on failure last_save_info_, and therefore the LASTSAVE
reply, is unchanged. -/
theorem doSave_publish_claim (ec : Option Nat) (now_unix : Nat) (path : List Char)
    (freq : List (List Char × Nat)) (prev : LastSaveInfo) :
    (ec = none →
      doSavePublish ec now_unix path freq prev =
        { save_time := now_unix, file_name := path, freq_map := freq } ∧
      (prev.save_time ≤ now_unix →
        lastSaveReply prev ≤ lastSaveReply (doSavePublish ec now_unix path freq prev))) ∧
    (ec ≠ none →
      doSavePublish ec now_unix path freq prev = prev ∧
      lastSaveReply (doSavePublish ec now_unix path freq prev) = lastSaveReply prev) := by
  constructor
  · rintro rfl
    exact ⟨rfl, fun hle => hle⟩
  · intro hne
    match ec, hne with
    | some e, _ => exact ⟨rfl, rfl⟩

/-- Witness for C9: a successful save with a later timestamp advances the
reply; a failed save leaves it unchanged. -/
theorem doSave_publish_claim_witness :
    doSavePublish none 100 "dump-T.rdb".toList [] ⟨50, [], []⟩ =
      ⟨100, "dump-T.rdb".toList, []⟩ ∧
    doSavePublish (some 16) 100 "dump-T.rdb".toList [] ⟨50, [], []⟩ = ⟨50, [], []⟩ := by
  constructor
  · exact ((doSave_publish_claim none 100 "dump-T.rdb".toList [] ⟨50, [], []⟩).1 rfl).1
  · exact ((doSave_publish_claim (some 16) 100 "dump-T.rdb".toList [] ⟨50, [], []⟩).2
      (by decide)).1

/-! ### The replica handshake reply to REPLCONF capa dragonfly (C6) -/

/-- The length of a master replication id, CONFIG_RUN_ID_SIZE. Modelled
from the spec: the constant comes from redis_aux.h, outside the given
sources; the spec fixes master_repl_id to 40 ASCII characters. -/
def CONFIG_RUN_ID_SIZE : Nat := 40

/-- The shapes of parsed RESP values that Replica.Greet inspects: strings,
64-bit integers, and everything else (arrays, nil, errors), which the
handshake rejects by type. -/
inductive RespExpr
  | str (s : List Char)
  | int64 (v : Int)
  | other
deriving DecidableEq

/-- The type test resp_args_.front().type == RespExpr::STRING. -/
def RespExpr.isStr : RespExpr → Bool
  | .str _ => true
  | _ => false

/-- The state Greet updates when the third handshake exchange succeeds. -/
structure GreetResult where
  master_repl_id : List Char
  dfly_session_id : List Char
  num_df_flows : Int
  greeted : Bool
deriving DecidableEq

/-- The decision Replica.Greet takes on the parsed reply to
REPLCONF capa dragonfly (replica.cc:352-398). none stands for returning
errc.bad_message. A single string OK marks a legacy Redis master and only
sets the R_GREETED bit; a 3-element reply must be (string of
CONFIG_RUN_ID_SIZE bytes, string, integer in [1, 1024]) and its fields are
stored into the master context together with the flow count. ReadRespReply
only succeeds with a nonempty argument list, so the empty case is
unreachable and conservatively rejects. The prior master context is passed
in so the legacy case can leave it unchanged. -/
def greetCapaDragonfly (prior : GreetResult) : List RespExpr → Option GreetResult
  | [] => none
  | a0 :: rest =>
    if ¬ a0.isStr then none
    else
      match a0, rest with
      | .str s0, [] => if s0 = "OK".toList then some { prior with greeted := true } else none
      | .str s0, [a1, a2] =>
        match a1, a2 with
        | .str s1, .int64 v =>
          if s0.length ≠ CONFIG_RUN_ID_SIZE then none
          else if v ≤ 0 ∨ 1024 < v then none
          else some { master_repl_id := s0, dfly_session_id := s1,
                      num_df_flows := v, greeted := true }
        | _, _ => none
      | _, _ => none

example :
    greetCapaDragonfly ⟨[], [], 0, false⟩ [.str "OK".toList] =
      some ⟨[], [], 0, true⟩ := by decide
example :
    greetCapaDragonfly ⟨[], [], 0, false⟩
      [.str (List.replicate 40 'a'), .str "SYNC7".toList, .int64 3] =
      some ⟨List.replicate 40 'a', "SYNC7".toList, 3, true⟩ := by decide
example :
    greetCapaDragonfly ⟨[], [], 0, false⟩
      [.str (List.replicate 39 'a'), .str "SYNC7".toList, .int64 3] = none := by decide
example :
    greetCapaDragonfly ⟨[], [], 0, false⟩
      [.str (List.replicate 40 'a'), .str "SYNC7".toList, .int64 1025] = none := by decide

/-- C6: the third handshake exchange of Replica.Greet fails with
bad_message unless the reply is the single string OK (legacy master) or a
3-element reply whose first element is a string of exactly 40 bytes, whose
second element is a string, and whose third element is an integer between 1
and 1024; in the 3-element case the first element is stored as
master_repl_id, the second as dfly_session_id, the third as the flow
count, and the greeted flag (the R_GREETED bit) is set. -/
theorem greet_capa_dragonfly_claim (prior : GreetResult) (args : List RespExpr) :
    ((greetCapaDragonfly prior args).isSome = true ↔
      (args = [.str "OK".toList] ∨
        ∃ s0 s1 v, args = [.str s0, .str s1, .int64 v] ∧
          s0.length = 40 ∧ 1 ≤ v ∧ v ≤ 1024)) ∧
    (∀ s0 s1 v, args = [.str s0, .str s1, .int64 v] → s0.length = 40 →
      1 ≤ v → v ≤ 1024 →
      greetCapaDragonfly prior args =
        some { master_repl_id := s0, dfly_session_id := s1,
               num_df_flows := v, greeted := true }) := by
  constructor
  · constructor
    · intro h
      match args with
      | [] => simp [greetCapaDragonfly] at h
      | [RespExpr.str s0] =>
        by_cases hok : s0 = "OK".toList
        · subst hok; exact Or.inl rfl
        · simp [greetCapaDragonfly, RespExpr.isStr, hok] at h
          exact absurd (h.trans rfl) hok
      | [RespExpr.int64 v] => simp [greetCapaDragonfly, RespExpr.isStr] at h
      | [RespExpr.other] => simp [greetCapaDragonfly, RespExpr.isStr] at h
      | [RespExpr.str s0, a1] => simp [greetCapaDragonfly, RespExpr.isStr] at h
      | [RespExpr.int64 v, a1] => simp [greetCapaDragonfly, RespExpr.isStr] at h
      | [RespExpr.other, a1] => simp [greetCapaDragonfly, RespExpr.isStr] at h
      | RespExpr.int64 v :: rest => simp [greetCapaDragonfly, RespExpr.isStr] at h
      | RespExpr.other :: rest => simp [greetCapaDragonfly, RespExpr.isStr] at h
      | [RespExpr.str s0, a1, a2] =>
        match a1, a2 with
        | RespExpr.str s1, RespExpr.int64 v =>
          refine Or.inr ⟨s0, s1, v, rfl, ?_⟩
          by_cases hlen : s0.length = CONFIG_RUN_ID_SIZE
          · by_cases hrange : v ≤ 0 ∨ 1024 < v
            · simp [greetCapaDragonfly, RespExpr.isStr, hlen, hrange] at h
            · rw [not_or, not_le, not_lt] at hrange
              exact ⟨hlen, hrange.1, hrange.2⟩
          · simp [greetCapaDragonfly, RespExpr.isStr, hlen] at h
        | RespExpr.str s1, RespExpr.str s2 =>
          simp [greetCapaDragonfly, RespExpr.isStr] at h
        | RespExpr.str s1, RespExpr.other =>
          simp [greetCapaDragonfly, RespExpr.isStr] at h
        | RespExpr.int64 v, _ => simp [greetCapaDragonfly, RespExpr.isStr] at h
        | RespExpr.other, _ => simp [greetCapaDragonfly, RespExpr.isStr] at h
      | RespExpr.str s0 :: a1 :: a2 :: a3 :: rest =>
        simp [greetCapaDragonfly, RespExpr.isStr] at h
    · intro h
      rcases h with rfl | ⟨s0, s1, v, rfl, hlen, h1, h2⟩
      · simp [greetCapaDragonfly, RespExpr.isStr]
      · have hrange : ¬ (v ≤ 0 ∨ 1024 < v) := by omega
        simp [greetCapaDragonfly, RespExpr.isStr, hlen, CONFIG_RUN_ID_SIZE, hrange]
  · rintro s0 s1 v rfl hlen h1 h2
    have hrange : ¬ (v ≤ 0 ∨ 1024 < v) := by omega
    simp [greetCapaDragonfly, RespExpr.isStr, hlen, CONFIG_RUN_ID_SIZE, hrange]

/-- Witness for C6: a reply carrying a 40-byte id, a session id and 3 flows
is accepted and stored. -/
theorem greet_capa_dragonfly_claim_witness :
    greetCapaDragonfly ⟨[], [], 0, false⟩
      [.str (List.replicate 40 'b'), .str "SYNC7".toList, .int64 3] =
      some ⟨List.replicate 40 'b', "SYNC7".toList, 3, true⟩ :=
  (greet_capa_dragonfly_claim ⟨[], [], 0, false⟩
      [.str (List.replicate 40 'b'), .str "SYNC7".toList, .int64 3]).2
    (List.replicate 40 'b') "SYNC7".toList 3 rfl (by decide) (by decide) (by decide)

/-! ### The REPLCONF command (C7, C8) -/

/-- ASCII uppercase conversion of one character, as performed by ToUpper on
an argument slice. -/
def toUpperChar (c : Char) : Char :=
  if 97 ≤ c.toNat ∧ c.toNat ≤ 122 then Char.ofNat (c.toNat - 32) else c

/-- ASCII uppercase conversion of a string. -/
def toUpperStr (s : List Char) : List Char := s.map toUpperChar

/-- The reply ServerFamily.ReplConf sends: the syntax error, plain OK, or
the 3-element reply master id / SYNC session id / thread count. -/
inductive ReplConfReply
  | errSyntaxReply
  | okReply
  | syncReply (master_id : List Char) (sync_id : List Char) (num_threads : Nat)
deriving DecidableEq

/-- The server data ReplConf reads: master_id_, the session id that
DflyCmd.AllocateSyncSession would hand out next, and the proactor pool
size. -/
structure ReplConfEnv where
  master_id : List Char
  next_sync_id : Nat
  pool_size : Nat

/-- The option-scanning loop of ServerFamily.ReplConf
(server_family.cc:1376-1400): i walks the argument vector of total size n
in steps of two, starting at 1; the only early return fires for the
uppercase key CAPA with value dragonfly when the vector has size 3 and the
option is the first one; every other pair is skipped. none means the loop
ran to its end. -/
def replConfLoop (env : ReplConfEnv) (n : Nat) : List (List Char) → Nat → Option ReplConfReply
  | k :: v :: rest, i =>
    if toUpperStr k = "CAPA".toList then
      if v = "dragonfly".toList ∧ n = 3 ∧ i = 1 then
        some (.syncReply env.master_id ("SYNC".toList ++ natToChars env.next_sync_id)
          env.pool_size)
      else replConfLoop env n rest (i + 2)
    else replConfLoop env n rest (i + 2)
  | _, _ => none

/-- ServerFamily.ReplConf (server_family.cc:1372-1407): an argument vector
(including the command name) of even size is rejected with the syntax
error; otherwise the key/value pairs after the name are scanned and the
command replies OK unless the scan returned the dragonfly sync reply. The
boolean records whether a sync session was allocated. -/
def ReplConf (env : ReplConfEnv) (args : List (List Char)) : ReplConfReply × Bool :=
  if args.length % 2 = 0 then (.errSyntaxReply, false)
  else
    match replConfLoop env args.length (args.drop 1) 1 with
    | some r => (r, true)
    | none => (.okReply, false)

example :
    ReplConf ⟨"m".toList, 7, 4⟩ ["REPLCONF".toList, "capa".toList, "dragonfly".toList] =
      (.syncReply "m".toList "SYNC7".toList 4, true) := by decide
example :
    ReplConf ⟨"m".toList, 7, 4⟩ ["REPLCONF".toList, "listening-port".toList] =
      (.errSyntaxReply, false) := by decide
example :
    ReplConf ⟨"m".toList, 7, 4⟩
      ["REPLCONF".toList, "listening-port".toList, "6379".toList] =
      (.okReply, false) := by decide
example :
    ReplConf ⟨"m".toList, 7, 4⟩
      ["REPLCONF".toList, "listening-port".toList, "6379".toList,
       "capa".toList, "dragonfly".toList] = (.okReply, false) := by decide

lemma replConfLoop_none_of_ne_one (env : ReplConfEnv) (n : Nat) :
    ∀ m, ∀ l : List (List Char), l.length ≤ m → ∀ i, i ≠ 1 →
      replConfLoop env n l i = none := by
  intro m
  induction m with
  | zero =>
    intro l hl i hi
    match l with
    | [] => rfl
  | succ m ih =>
    intro l hl i hi
    match l with
    | [] => rfl
    | [k] => rfl
    | k :: v :: rest =>
      simp only [replConfLoop]
      have h2 : i + 2 ≠ 1 := by omega
      have hr : rest.length ≤ m := by
        simp only [List.length_cons] at hl
        omega
      by_cases hc : toUpperStr k = "CAPA".toList
      · rw [if_pos hc, if_neg (by rintro ⟨-, -, h3⟩; exact hi h3)]
        exact ih rest hr _ h2
      · rw [if_neg hc]
        exact ih rest hr _ h2

lemma replConfLoop_first (env : ReplConfEnv) (n : Nat) (k v : List Char)
    (rest : List (List Char)) :
    replConfLoop env n (k :: v :: rest) 1 =
      if toUpperStr k = "CAPA".toList ∧ v = "dragonfly".toList ∧ n = 3 then
        some (.syncReply env.master_id ("SYNC".toList ++ natToChars env.next_sync_id)
          env.pool_size)
      else none := by
  simp only [replConfLoop]
  by_cases hcapa : toUpperStr k = "CAPA".toList
  · rw [if_pos hcapa]
    by_cases hcond : v = "dragonfly".toList ∧ n = 3
    · rw [if_pos ⟨hcond.1, hcond.2, trivial⟩, if_pos ⟨hcapa, hcond⟩]
    · rw [if_neg (by rintro ⟨h1, h2, -⟩; exact hcond ⟨h1, h2⟩),
        replConfLoop_none_of_ne_one env n rest.length rest le_rfl (1 + 2) (by omega),
        if_neg (by rintro ⟨-, h1, h2⟩; exact hcond ⟨h1, h2⟩)]
  · rw [if_neg hcapa,
      replConfLoop_none_of_ne_one env n rest.length rest le_rfl (1 + 2) (by omega),
      if_neg (by rintro ⟨h1, -, -⟩; exact hcapa h1)]

/-- C7: a REPLCONF whose argument vector, including the command name, has
even size, i.e. whose number of key/value tokens after the name is odd, is
answered with the syntax error and performs no other action: no session is
allocated. -/
theorem replconf_odd_argc_claim (env : ReplConfEnv) (args : List (List Char))
    (hname : 1 ≤ args.length) (hodd : (args.length - 1) % 2 = 1) :
    ReplConf env args = (.errSyntaxReply, false) ∧ args.length % 2 = 0 := by
  have heven : args.length % 2 = 0 := by omega
  exact ⟨by simp [ReplConf, heven], heven⟩

/-- Witness for C7: REPLCONF with a single dangling key token is a syntax
error. -/
theorem replconf_odd_argc_claim_witness :
    ReplConf ⟨"m".toList, 7, 4⟩ ["REPLCONF".toList, "listening-port".toList] =
      (.errSyntaxReply, false) :=
  (replconf_odd_argc_claim ⟨"m".toList, 7, 4⟩
    ["REPLCONF".toList, "listening-port".toList] (by decide) (by decide)).1

/-- C8: on a well-formed (odd-sized) argument vector, ReplConf sends the
3-element reply master id / SYNC session id / pool thread count and
allocates a sync session exactly when the vector has size 3 and its first
option is the key CAPA (case-insensitive) with exact value dragonfly;
every other well-formed vector is answered OK without allocating. -/
theorem replconf_capa_dragonfly_claim (env : ReplConfEnv) (args : List (List Char))
    (hodd : args.length % 2 = 1) :
    (ReplConf env args =
        (.syncReply env.master_id ("SYNC".toList ++ natToChars env.next_sync_id)
          env.pool_size, true) ↔
      (∃ c k v, args = [c, k, v] ∧ toUpperStr k = "CAPA".toList ∧
        v = "dragonfly".toList)) ∧
    ((¬ ∃ c k v, args = [c, k, v] ∧ toUpperStr k = "CAPA".toList ∧
        v = "dragonfly".toList) →
      ReplConf env args = (.okReply, false)) := by
  have hne : ¬ args.length % 2 = 0 := by omega
  match args with
  | [] => simp at hodd
  | [c] =>
    constructor
    · constructor
      · intro h
        simp [ReplConf, replConfLoop] at h
      · rintro ⟨c', k', v', h, -, -⟩
        simp at h
    · intro _
      simp [ReplConf, replConfLoop]
  | [c, k] => simp at hodd
  | c :: k :: v :: rest =>
    have hlen : (c :: k :: v :: rest).length = rest.length + 3 := by simp
    have hloop := replConfLoop_first env (c :: k :: v :: rest).length k v rest
    constructor
    · constructor
      · intro h
        simp only [ReplConf, if_neg hne, List.drop_succ_cons, List.drop_zero] at h
        rw [hloop] at h
        by_cases hcond : toUpperStr k = "CAPA".toList ∧ v = "dragonfly".toList ∧
            (c :: k :: v :: rest).length = 3
        · have hrest : rest = [] := by
            have := hcond.2.2
            rw [hlen] at this
            exact List.eq_nil_of_length_eq_zero (by omega)
          subst hrest
          exact ⟨c, k, v, rfl, hcond.1, hcond.2.1⟩
        · rw [if_neg hcond] at h
          simp at h
      · rintro ⟨c', k', v', heq, hcapa, hdf⟩
        obtain ⟨rfl, rfl, rfl, hrest⟩ : c = c' ∧ k = k' ∧ v = v' ∧ rest = [] := by
          injection heq with h1 t1
          injection t1 with h2 t2
          injection t2 with h3 t3
          exact ⟨h1, h2, h3, t3⟩
        subst hrest
        simp only [ReplConf, if_neg hne, List.drop_succ_cons, List.drop_zero]
        rw [hloop, if_pos ⟨hcapa, hdf, by simp⟩]
    · intro hnex
      simp only [ReplConf, if_neg hne, List.drop_succ_cons, List.drop_zero]
      rw [hloop, if_neg ?hcond]
      case hcond =>
        rintro ⟨hcapa, hdf, h3⟩
        rw [hlen] at h3
        have hrest : rest = [] := List.eq_nil_of_length_eq_zero (by omega)
        subst hrest
        exact hnex ⟨c, k, v, rfl, hcapa, hdf⟩

/-- Witness for C8: REPLCONF CAPA dragonfly as the only option gets the
sync reply, and a different first option gets OK. -/
theorem replconf_capa_dragonfly_claim_witness :
    ReplConf ⟨"m".toList, 7, 4⟩ ["REPLCONF".toList, "capa".toList, "dragonfly".toList] =
      (.syncReply "m".toList "SYNC7".toList 4, true) ∧
    ReplConf ⟨"m".toList, 7, 4⟩
      ["REPLCONF".toList, "listening-port".toList, "6379".toList] = (.okReply, false) := by
  constructor
  · have h := (replconf_capa_dragonfly_claim ⟨"m".toList, 7, 4⟩
      ["REPLCONF".toList, "capa".toList, "dragonfly".toList] (by decide)).1.mpr
      ⟨"REPLCONF".toList, "capa".toList, "dragonfly".toList, rfl, by decide, rfl⟩
    rw [h]
    rfl
  · exact (replconf_capa_dragonfly_claim ⟨"m".toList, 7, 4⟩
      ["REPLCONF".toList, "listening-port".toList, "6379".toList] (by decide)).2
      (by rintro ⟨c', k', v', heq, hcapa, -⟩
          injection heq with h1 t1
          injection t1 with h2 t2
          subst h2
          exact absurd (hcapa.symm.trans rfl) (by decide))

end Dragonfly
